import Mathlib

/-!
Shallow embedding of the declarative filter-to-query compiler of
RealTimeTranslator-base_async (files `src/models/filter/models.py`,
`src/src/models/filter/engine.py`, `src/services/filter.py`).

JSON-ish runtime values are modelled by `Value` (scalars plus one level of
list nesting, the only distinction the filter code ever inspects via
`isinstance(v, list)`); the storage collaborator (SQLAlchemy select /
session.exec) is modelled by `SelectQ` with an executable semantics
`runSelect` over a list of rows.  Python floats are modelled as scaled
decimals (the source only ever builds them from decimal literals via
`float(x)`).
-/

namespace RTT

/-- Scalar runtime values (JSON scalars and parsed dates). -/
inductive Scalar where
  | sint (n : Int)
  | sstr (s : String)
  | sbool (b : Bool)
  | sfloat (mant : Int) (exp : Nat)
  | sdate (y m d : Nat)
  | snone
deriving DecidableEq, Repr

/-- Runtime values flowing through filters: a scalar or a list of scalars. -/
inductive Value where
  | scalar (s : Scalar)
  | vlist (xs : List Scalar)
deriving DecidableEq, Repr

def Value.vint (n : Int) : Value := .scalar (.sint n)
def Value.vstr (s : String) : Value := .scalar (.sstr s)
def Value.vbool (b : Bool) : Value := .scalar (.sbool b)
def Value.vnone : Value := .scalar .snone

/-- Python repr of a scalar (used when embedded in a list repr). -/
def Scalar.pyRepr : Scalar → String
  | .sint n => toString n
  | .sstr s => "\x27" ++ s ++ "\x27"
  | .sbool b => if b then "True" else "False"
  | .sfloat m e => toString m ++ "e-" ++ toString e
  | .sdate y m d => toString y ++ "-" ++ toString m ++ "-" ++ toString d
  | .snone => "None"

/-- Python str() of a scalar. -/
def Scalar.pyStr : Scalar → String
  | .sstr s => s
  | s => s.pyRepr

/-- Python str.lower(), modelled character-wise (ASCII case mapping; every
string lowered in this development is ASCII). -/
def pyToLower (s : String) : String := String.mk (s.toList.map Char.toLower)

/-- Python str.strip(): drop leading and trailing whitespace. -/
def pyTrimChars (cs : List Char) : List Char :=
  ((cs.dropWhile Char.isWhitespace).reverse.dropWhile Char.isWhitespace).reverse

def pyStrip (s : String) : String := String.mk (pyTrimChars s.toList)

/-- Python str() of a value. -/
def pyStr : Value → String
  | .scalar s => s.pyStr
  | .vlist xs => "[" ++ String.intercalate ", " (xs.map Scalar.pyRepr) ++ "]"

/-- Scalar order used by the storage collaborator for comparison
predicates: integers, strings and dates compare naturally, anything else is
incomparable. -/
def scalLt : Scalar → Scalar → Bool
  | .sint a, .sint b => a < b
  | .sstr a, .sstr b => a < b
  | .sdate y1 m1 d1, .sdate y2 m2 d2 =>
      (y1 < y2) || (y1 == y2 && (m1 < m2 || (m1 == m2 && d1 < d2)))
  | _, _ => false

def scalLe (a b : Scalar) : Bool := scalLt a b || a == b

/-- One atomic predicate, as built by an operator applied to a column. -/
inductive AtomPred where
  | peq (col : String) (v : Value)
  | pne (col : String) (v : Value)
  | pgt (col : String) (v : Value)
  | pgte (col : String) (v : Value)
  | plt (col : String) (v : Value)
  | plte (col : String) (v : Value)
  | pin (col : String) (vs : List Scalar)
  | pnotin (col : String) (vs : List Scalar)
  | plike (col : String) (pat : String)
  | pilike (col : String) (pat : String)
deriving DecidableEq, Repr

/-- A WHERE clause as produced by `and_(*conds)` / `or_(*conds)`. -/
inductive GroupPred where
  | pand (ps : List AtomPred)
  | por (ps : List AtomPred)
deriving DecidableEq, Repr

/-- A stored row: association list from column name to scalar value. -/
abbrev Row := List (String × Scalar)

def Row.get (r : Row) (c : String) : Scalar :=
  match r.find? (fun kv => kv.1 == c) with
  | some kv => kv.2
  | none => .snone

/-- SQL LIKE matching helper: check the chunks between percent wildcards
appear in order in the haystack, the last one as a suffix. -/
def likeChunks (hay : String) (chunks : List String) : Bool :=
  match chunks with
  | [] => hay.isEmpty
  | [c] => hay.endsWith c
  | c :: rest =>
      match hay.splitOn c with
      | [] => false
      | [_] => false
      | _ :: restHay => likeChunks (String.intercalate c restHay) rest

/-- SQL LIKE for patterns made only of literal text and percent wildcards
(the engine only ever builds percent ++ text ++ percent). -/
def likeMatch (hay pat : String) : Bool :=
  match pat.splitOn "%" with
  | [] => hay.isEmpty
  | [p] => hay == p
  | first :: rest =>
      hay.startsWith first && likeChunks (hay.drop first.length) rest

/-- Equality between a column scalar and a filter value, as the storage
collaborator decides `c == v`. -/
def scalEqVal (c : Scalar) (v : Value) : Bool :=
  match v with
  | .scalar s => c == s
  | .vlist _ => false

def evalAtom (r : Row) : AtomPred → Bool
  | .peq c v => scalEqVal (Row.get r c) v
  | .pne c v => !scalEqVal (Row.get r c) v
  | .pgt c v =>
      match v with
      | .scalar s => scalLt s (Row.get r c)
      | .vlist _ => false
  | .pgte c v =>
      match v with
      | .scalar s => scalLe s (Row.get r c)
      | .vlist _ => false
  | .plt c v =>
      match v with
      | .scalar s => scalLt (Row.get r c) s
      | .vlist _ => false
  | .plte c v =>
      match v with
      | .scalar s => scalLe (Row.get r c) s
      | .vlist _ => false
  | .pin c vs => vs.any (fun s => Row.get r c == s)
  | .pnotin c vs => !(vs.any (fun s => Row.get r c == s))
  | .plike c pat => likeMatch (Row.get r c).pyStr pat
  | .pilike c pat => likeMatch (pyToLower (Row.get r c).pyStr) (pyToLower pat)

def evalGroupPred (r : Row) : GroupPred → Bool
  | .pand ps => ps.all (evalAtom r)
  | .por ps => ps.any (evalAtom r)

/-- Operator registry mirroring `Op` in src/models/filter/models.py. -/
inductive Op where
  | EQ | NE | GT | GTE | LT | LTE | IN | NOT_IN | LIKE | ILIKE
deriving DecidableEq, Repr

def Op.symbol : Op → String
  | .EQ => "="
  | .NE => "!="
  | .GT => ">"
  | .GTE => ">="
  | .LT => "<"
  | .LTE => "<="
  | .IN => "in"
  | .NOT_IN => "not_in"
  | .LIKE => "like"
  | .ILIKE => "ilike"

def Op.aliases : Op → List String
  | .EQ => ["=", "eq"]
  | .NE => ["!=", "ne", "not_eq"]
  | .GT => [">", "gt"]
  | .GTE => [">=", "gte", "ge"]
  | .LT => ["<", "lt"]
  | .LTE => ["<=", "lte", "le"]
  | .IN => ["in", "IN"]
  | .NOT_IN => ["not_in", "NOT_IN"]
  | .LIKE => ["like", "LIKE"]
  | .ILIKE => ["ilike", "ILIKE"]

/-- Declaration order of the enum members, as iterated by `for op in cls`. -/
def Op.all : List Op :=
  [.EQ, .NE, .GT, .GTE, .LT, .LTE, .IN, .NOT_IN, .LIKE, .ILIKE]

/-- `Op.get_all_aliases`. -/
def Op.get_all_aliases : List String :=
  Op.all.foldl (fun acc op => acc ++ op.aliases) []

/-- Python list repr of a list of strings, as an f-string renders it. -/
def pyStrListRepr (xs : List String) : String :=
  "[" ++ String.intercalate ", " (xs.map (fun a => "\x27" ++ a ++ "\x27")) ++ "]"

def Op.unsupportedMsg (s : String) : String :=
  "Неподдерживаемый оператор: \x27" ++ s ++ "\x27. Доступные: " ++
    pyStrListRepr Op.get_all_aliases

/-- `Op.from_string`: the loop `for op in cls: if op_str in op.aliases:
return op`, else a ValueError naming all aliases. -/
def Op.from_string (s : String) : Except String Op :=
  match Op.all.find? (fun op => op.aliases.contains s) with
  | some op => .ok op
  | none => .error (Op.unsupportedMsg s)

/-- Scalar-to-sequence normalization performed inside the IN / NOT_IN
lambdas: `v if isinstance(v, list) else [v]`. -/
def Value.asInList : Value → List Scalar
  | .vlist xs => xs
  | .scalar s => [s]

def Value.isList : Value → Bool
  | .vlist _ => true
  | _ => false

/-- `Op.apply`: the per-member lambda building a predicate from a column
reference and a value. -/
def Op.apply (op : Op) (col : String) (v : Value) : AtomPred :=
  match op with
  | .EQ => .peq col v
  | .NE => .pne col v
  | .GT => .pgt col v
  | .GTE => .pgte col v
  | .LT => .plt col v
  | .LTE => .plte col v
  | .IN => .pin col v.asInList
  | .NOT_IN => .pnotin col v.asInList
  | .LIKE => .plike col ("%" ++ pyStr v ++ "%")
  | .ILIKE => .pilike col ("%" ++ pyStr v ++ "%")

/-! Python string helpers used by the validators and the engine. -/

/-- Python str.isalnum on one character, restricted to the character ranges
exercised by this development: ASCII alphanumerics, Latin-1 letters and the
basic Cyrillic block.  (Python accepts every Unicode alphanumeric; all
characters appearing in this development fall in these ranges, and on them
this function agrees with Python.) -/
def pyIsAlnumChar (c : Char) : Bool :=
  c.isAlphanum ||
    (0xC0 ≤ c.toNat && c.toNat ≤ 0xFF && c.toNat != 0xD7 && c.toNat != 0xF7) ||
    (0x400 ≤ c.toNat && c.toNat ≤ 0x481)

/-- Python str.isalnum: nonempty and all characters alphanumeric. -/
def pyIsAlnum (s : String) : Bool :=
  !s.isEmpty && s.toList.all pyIsAlnumChar

/-- The result of `v.replace('_', '').replace('-', '')`. -/
def stripUnderscoreDash (s : String) : String :=
  String.mk (s.toList.filter (fun c => c != '_' && c != '-'))

/-- Python str.replace with a single-character needle, written as a direct
character-wise substitution. -/
def replList (c : Char) (new : String) : List Char → String
  | [] => ""
  | ch :: rest =>
      (if ch == c then new else String.singleton ch) ++ replList c new rest

def pyReplaceChar (c : Char) (new : String) (s : String) : String :=
  replList c new s.toList

/-- Character-list prefix test. -/
def hasPrefixCL : List Char → List Char → Bool
  | _, [] => true
  | [], _ :: _ => false
  | h :: hs, n :: ns => h == n && hasPrefixCL hs ns

/-- Character-list substring test. -/
def hasSubstrCL : List Char → List Char → Bool
  | [], needle => needle.isEmpty
  | h :: t, needle => hasPrefixCL (h :: t) needle || hasSubstrCL t needle

/-- Python substring test `needle in hay`. -/
def containsSubstr (hay needle : String) : Bool :=
  hasSubstrCL hay.toList needle.toList

/-! ISO-8601 parsing, modelling `datetime.fromisoformat(...).date()` on the
dashed-date / colon-separated-time subset that every call site uses. -/

def charDigit (c : Char) : Option Nat :=
  if c.isDigit then some (c.toNat - 48) else none

/-- Read exactly n digits off the front, returning their value and rest. -/
def readDigits : Nat → Nat → List Char → Option (Nat × List Char)
  | 0, acc, cs => some (acc, cs)
  | n + 1, acc, cs =>
      match cs with
      | [] => none
      | c :: rest =>
          match charDigit c with
          | some d => readDigits n (acc * 10 + d) rest
          | none => none

def isLeapYear (y : Nat) : Bool :=
  (y % 4 == 0 && y % 100 != 0) || y % 400 == 0

def daysInMonth (y m : Nat) : Nat :=
  if m == 2 then (if isLeapYear y then 29 else 28)
  else if m == 4 || m == 6 || m == 9 || m == 11 then 30
  else 31

/-- Parse the optional UTC-offset suffix: sign HH : MM optionally : SS. -/
def parseOffsetTail (cs : List Char) : Bool :=
  match cs with
  | [] => true
  | sgn :: rest =>
      (sgn == '+' || sgn == '-') &&
      (match readDigits 2 0 rest with
       | some (oh, ':' :: rest2) =>
           oh ≤ 23 &&
           (match readDigits 2 0 rest2 with
            | some (om, rest3) =>
                om ≤ 59 &&
                (match rest3 with
                 | [] => true
                 | ':' :: rest4 =>
                     (match readDigits 2 0 rest4 with
                      | some (os, []) => os ≤ 59
                      | _ => false)
                 | _ => false)
            | none => false)
       | _ => false)

/-- Parse the fractional-seconds suffix and then an optional offset. -/
def parseFracTail (cs : List Char) : Bool :=
  match cs with
  | '.' :: rest =>
      let digits := rest.takeWhile Char.isDigit
      let after := rest.dropWhile Char.isDigit
      digits.length > 0 && digits.length ≤ 6 && parseOffsetTail after
  | _ => parseOffsetTail cs

/-- Parse HH:MM with optional :SS, fraction and offset. -/
def parseTimePart (cs : List Char) : Bool :=
  match readDigits 2 0 cs with
  | some (h, ':' :: rest) =>
      h ≤ 23 &&
      (match readDigits 2 0 rest with
       | some (mi, rest2) =>
           mi ≤ 59 &&
           (match rest2 with
            | [] => true
            | ':' :: rest3 =>
                (match readDigits 2 0 rest3 with
                 | some (se, rest4) => se ≤ 59 && parseFracTail rest4
                 | none => false)
            | _ => parseOffsetTail rest2)
       | none => false)
  | _ => false

/-- `datetime.fromisoformat(s).date()`: dashed date, optional time part
separated by T or space, optional fraction and UTC offset. -/
def pyFromIso (s : String) : Option (Nat × Nat × Nat) :=
  match readDigits 4 0 s.toList with
  | some (y, '-' :: r1) =>
      (match readDigits 2 0 r1 with
       | some (m, '-' :: r2) =>
           (match readDigits 2 0 r2 with
            | some (d, rest) =>
                if 1 ≤ m && m ≤ 12 && 1 ≤ d && d ≤ daysInMonth y m then
                  match rest with
                  | [] => some (y, m, d)
                  | sep :: timeCs =>
                      if (sep == 'T' || sep == ' ') && parseTimePart timeCs
                      then some (y, m, d) else none
                else none
            | none => none)
       | _ => none)
  | _ => none

/-! Value coercion: `AsyncQueryFilterEngine._cast_value`. -/

/-- Python int(x): identity on ints, bool to 0/1, truncation on floats,
base-10 parse (with optional sign and surrounding whitespace) on strings;
TypeError on anything else. -/
def digitsToInt (cs : List Char) : Int :=
  Int.ofNat (cs.foldl (fun acc c => acc * 10 + (c.toNat - 48)) 0)

def parseIntBody (cs : List Char) : Option Int :=
  match cs with
  | [] => none
  | _ =>
      let sgn : Int := if cs.head? == some '-' then -1 else 1
      let digits := if cs.head? == some '-' || cs.head? == some '+'
                    then cs.drop 1 else cs
      if digits ≠ [] && digits.all Char.isDigit then
        some (sgn * digitsToInt digits)
      else none

def tryInt : Value → Option Int
  | .scalar (.sint n) => some n
  | .scalar (.sbool b) => some (if b then 1 else 0)
  | .scalar (.sfloat m e) => some (Int.tdiv m ((10 : Int) ^ e))
  | .scalar (.sstr s) => parseIntBody (pyTrimChars s.toList)
  | _ => none

/-- Drop trailing decimal zeros so that equal decimals share one form. -/
def normFloat (m : Int) : Nat → Int × Nat
  | 0 => (m, 0)
  | e + 1 => if m % 10 == 0 then normFloat (m / 10) e else (m, e + 1)

/-- Python float(x) on the decimal-literal subset: ints, bools, floats pass
through; strings of shape sign digits [. digits] parse; else failure. -/
def tryFloat : Value → Option (Int × Nat)
  | .scalar (.sint n) => some (n, 0)
  | .scalar (.sbool b) => some (if b then (1, 0) else (0, 0))
  | .scalar (.sfloat m e) => some (m, e)
  | .scalar (.sstr s) =>
      let cs := pyTrimChars s.toList
      let sgn : Int := if cs.head? == some '-' then -1 else 1
      let body := if cs.head? == some '-' || cs.head? == some '+'
                  then cs.drop 1 else cs
      let ip := body.takeWhile Char.isDigit
      let rest := body.dropWhile Char.isDigit
      (match rest with
       | [] => if ip ≠ [] then some (sgn * digitsToInt ip, 0) else none
       | '.' :: fp =>
           if fp.all Char.isDigit && (ip ≠ [] || fp ≠ []) then
             some (normFloat (sgn * digitsToInt (ip ++ fp)) fp.length)
           else none
       | _ => none)
  | _ => none

/-- The converters table body: per-type conversion, None on the exceptions
the source catches (KeyError / ValueError / TypeError). -/
def tryConvert (th : String) (v : Value) : Option Value :=
  if th == "str" then some (.vstr (pyStr v))
  else if th == "int" then (tryInt v).map Value.vint
  else if th == "float" then
    (tryFloat v).map (fun p => .scalar (.sfloat p.1 p.2))
  else if th == "bool" then
    some (.vbool ((pyToLower (pyStr v)) ∈ (["true", "1", "yes", "on"] : List String)))
  else if th == "date" then
    (pyFromIso (pyReplaceChar 'Z' "+00:00" (pyStr v))).map
      (fun t => .scalar (.sdate t.1 t.2.1 t.2.2))
  else none

/-- `_cast_value(value, type_hint)`: best-effort coercion; falsy type hint
or None value pass through; conversion failure returns the raw value. -/
def cast_value (value : Value) (type_hint : Option String) : Value :=
  match type_hint with
  | none => value
  | some th =>
      if th == "" || value == Value.vnone then value
      else
        match tryConvert th value with
        | some v' => v'
        | none => value

/-! The filter grammar: validated value types from src/models/filter/models.py.
Pydantic construction is modelled by `make` functions returning `Except`;
the structures hold the post-validation state. -/

/-- A single condition (class `Filter`), after validation. -/
structure Filter where
  name : String
  op : Op
  value : Value
  type : Option String
deriving DecidableEq, Repr

/-- The `validate_name` field validator (plus the `min_length=1` field
constraint): non-empty, no characters outside alphanumerics / underscore /
dash, returned stripped. -/
def validateName (v : String) : Except String String :=
  if v == "" then .error "String should have at least 1 character"
  else if pyStrip v == "" then .error "Название поля не может быть пустым"
  else if !(pyIsAlnum (stripUnderscoreDash v)) then
    .error ("Недопустимые символы в названии поля: \x27" ++ v ++ "\x27")
  else .ok (pyStrip v)

/-- The `validate_op` field validator: strings resolve via `Op.from_string`. -/
def validateOp : Op ⊕ String → Except String Op
  | .inl op => .ok op
  | .inr s => Op.from_string s

/-- The `validate_value` field validator: None is rejected. -/
def validateValue (v : Value) : Except String Value :=
  if v == Value.vnone then .error "Значение фильтра не может быть None"
  else .ok v

/-- The `type` field accepts only the declared Literal members or None
(pydantic checks this before any validator runs on other fields ends). -/
def validateTypeHint : Option Value → Except String (Option String)
  | none => .ok none
  | some (.scalar (.sstr s)) =>
      if s ∈ (["str", "int", "float", "bool", "date"] : List String)
      then .ok (some s)
      else .error ("Input should be \x27str\x27, \x27int\x27, \x27float\x27, \x27bool\x27 or \x27date\x27, got " ++ s)
  | some _ => .error "Input should be a valid string"

/-- Constructing a `Filter`, running the field validators in declaration
order (name, op, value, type). -/
def Filter.make (name : String) (op : Op ⊕ String) (value : Value)
    (ty : Option Value) : Except String Filter := do
  let n ← validateName name
  let o ← validateOp op
  let v ← validateValue value
  let t ← validateTypeHint ty
  .ok ⟨n, o, v, t⟩

/-- Normalized group boolean operator. -/
inductive GOp where
  | gand
  | gor
deriving DecidableEq, Repr

/-- A group of conditions (class `FilterGroup`), after validation. -/
structure FilterGroup where
  op : GOp
  filters : List Filter
deriving DecidableEq, Repr

/-- The `validate_group_op` mapping: and / AND / all and or / OR / any. -/
def validateGroupOp (v : String) : Except String GOp :=
  if v == "and" || v == "AND" || v == "all" then .ok .gand
  else if v == "or" || v == "OR" || v == "any" then .ok .gor
  else .error ("Неподдерживаемый оператор группы: \x27" ++ v ++ "\x27")

/-- Constructing a `FilterGroup`: op mapping plus `min_length=1` on the
filter list. -/
def FilterGroup.make (op : String) (filters : List Filter) :
    Except String FilterGroup := do
  let o ← validateGroupOp op
  if filters == [] then .error "List should have at least 1 item"
  else .ok ⟨o, filters⟩

/-- `validate_order_by`: strip, then the identifier charset check (only
when the stripped string is nonempty). -/
def validateOrderBy (v : Option String) : Except String (Option String) :=
  match v with
  | none => .ok none
  | some s =>
      let s := pyStrip s
      if s != "" && !(pyIsAlnum (stripUnderscoreDash s)) then
        .error ("Недопустимые символы в поле сортировки: \x27" ++ s ++ "\x27")
      else .ok (some s)

/-- A validated `FilterQuery`. -/
structure FilterQuery where
  offset : Nat
  limit : Nat
  order_by : Option String
  desc : Bool
  groups : List FilterGroup
deriving DecidableEq, Repr

/-- Constructing a `FilterQuery`: `offset ≥ 0`, `1 ≤ limit ≤ 1000`,
order-by charset. -/
def FilterQuery.make (offset limit : Int) (order_by : Option String)
    (desc : Bool) (groups : List FilterGroup) : Except String FilterQuery := do
  if offset < 0 then .error "Input should be greater than or equal to 0"
  else if limit < 1 then .error "Input should be greater than or equal to 1"
  else if limit > 1000 then .error "Input should be less than or equal to 1000"
  else do
    let ob ← validateOrderBy order_by
    .ok ⟨offset.toNat, limit.toNat, ob, desc, groups⟩

/-! Raw JSON-ish shapes feeding `FilterParams.advanced_filters`
(`list[dict[str, Any]]` whose inner items are unconstrained). -/

/-- An element of a group's `items` list: a dict or a bare scalar. -/
inductive RItem where
  | idict (kvs : List (String × Value))
  | iprim (v : Value)
deriving DecidableEq, Repr

/-- A value stored in an advanced-filter group dict. -/
inductive RVal where
  | prim (v : Value)
  | arr (items : List RItem)
deriving DecidableEq, Repr

/-- An advanced-filter group: a string-keyed dict. -/
abbrev RawGroup := List (String × RVal)

def rgLookup (g : RawGroup) (k : String) : Option RVal :=
  match g.find? (fun kv => kv.1 == k) with
  | some kv => some kv.2
  | none => none

def riLookup (kvs : List (String × Value)) (k : String) : Option Value :=
  match kvs.find? (fun kv => kv.1 == k) with
  | some kv => some kv.2
  | none => none

/-- The `filters` field of `FilterParams` before normalization: a mapping,
a list of group dicts, or None. -/
inductive FiltersInput where
  | fdict (kvs : List (String × Value))
  | flist (gs : List RawGroup)
  | fnone
deriving DecidableEq, Repr

/-- A validated `FilterParams` (state after `normalize_and_validate_filters`;
the `filters` field can no longer be a list). -/
structure FilterParams where
  offset : Nat
  limit : Nat
  order_by : Option String
  asc : Nat
  filters : Option (List (String × Value))
  advanced_filters : Option (List RawGroup)
deriving DecidableEq, Repr

/-- `FilterParams.is_desc`. -/
def FilterParams.is_desc (p : FilterParams) : Bool := p.asc == 0

/-- The inner item loop of the list-shape validation: every item must be a
dict carrying `name` and `value` (first violation wins, message with both
indices). -/
def checkItems (i : Nat) : Nat → List RItem → Except String Unit
  | _, [] => .ok ()
  | j, item :: rest =>
      match item with
      | .iprim _ =>
          .error ("Элемент filters[" ++ toString i ++ "].items[" ++ toString j ++ "] должен быть объектом")
      | .idict kvs =>
          if riLookup kvs "name" == none then
            .error ("В filters[" ++ toString i ++ "].items[" ++ toString j ++ "] отсутствует поле \x27name\x27")
          else if riLookup kvs "value" == none then
            .error ("В filters[" ++ toString i ++ "].items[" ++ toString j ++ "] отсутствует поле \x27value\x27")
          else checkItems i (j + 1) rest

/-- Structure check for one group of a list-shaped `filters` field, as in
`normalize_and_validate_filters` (first violated rule, message with index). -/
def checkGroupShape (i : Nat) (g : RawGroup) : Except String Unit :=
  if rgLookup g "operator" == none then
    .error ("В filters[" ++ toString i ++ "] отсутствует поле \x27operator\x27")
  else if rgLookup g "items" == none then
    .error ("В filters[" ++ toString i ++ "] отсутствует поле \x27items\x27")
  else
    match rgLookup g "items" with
    | some (.arr items) =>
        if items == [] then
          .error ("Поле \x27items\x27 в filters[" ++ toString i ++ "] должно быть непустым списком")
        else checkItems i 0 items
    | _ =>
        .error ("Поле \x27items\x27 в filters[" ++ toString i ++ "] должно быть непустым списком")

def checkGroupsShape : Nat → List RawGroup → Except String Unit
  | _, [] => .ok ()
  | i, g :: rest => do
      checkGroupShape i g
      checkGroupsShape (i + 1) rest

/-- Validation of a mapping-shaped `filters` field: keys non-empty, values
non-None (first violation wins, in insertion order). -/
def checkDictFilters : List (String × Value) → Except String Unit
  | [] => .ok ()
  | (k, v) :: rest =>
      if k == "" || pyStrip k == "" then
        .error "Ключ фильтра не может быть пустым"
      else if v == Value.vnone then
        .error ("Значение фильтра для поля \x27" ++ k ++ "\x27 не может быть None")
      else checkDictFilters rest

/-- The `normalize_and_validate_filters` model validator: a list-shaped
`filters` is structure-checked, appended wholesale to `advanced_filters`
and replaced by an empty mapping; a dict-shaped `filters` is key/value
checked in place. -/
def normalizeFilters (filters : FiltersInput)
    (advanced : Option (List RawGroup)) :
    Except String (FiltersInput × Option (List RawGroup)) :=
  match filters with
  | .flist gs => do
      let adv := match advanced with
        | none => []
        | some l => l
      checkGroupsShape 0 gs
      .ok (.fdict [], some (adv ++ gs))
  | .fdict kvs => do
      checkDictFilters kvs
      .ok (.fdict kvs, advanced)
  | .fnone => .ok (.fnone, advanced)

/-- The `asc` field validator. -/
def validateAsc (v : Int) : Except String Int :=
  if v == 0 || v == 1 then .ok v
  else .error "Параметр \x27asc\x27 должен быть 0 или 1"

/-- Constructing a `FilterParams`: field validators in declaration order,
then the normalization model validator. -/
def FilterParams.make (offset limit : Int) (order_by : Option String)
    (asc : Int) (filters : FiltersInput)
    (advanced : Option (List RawGroup)) : Except String FilterParams := do
  if offset < 0 then .error "Input should be greater than or equal to 0"
  else if limit < 1 then .error "Input should be greater than or equal to 1"
  else if limit > 1000 then .error "Input should be less than or equal to 1000"
  else do
    let ob ← validateOrderBy order_by
    let a ← validateAsc asc
    let (f, adv) ← normalizeFilters filters advanced
    let fd : Option (List (String × Value)) :=
      match f with
      | .fdict kvs => some kvs
      | .fnone => none
      | .flist _ => none
    .ok ⟨offset.toNat, limit.toNat, ob, a.toNat, fd, adv⟩

/-- The result envelope. -/
structure FilterResult where
  items : List Row
  total : Nat
deriving DecidableEq, Repr

/-- Per-entity policy object (`FilterConfig`). -/
structure FilterConfig where
  allowed_fields : Option (List String)
  default_limit : Nat
  max_limit : Nat
  default_order_by : Option String
deriving DecidableEq, Repr

/-- `FilterConfig.__init__`: a falsy (absent or empty) allow-list is stored
as None. -/
def FilterConfig.make (allowed : Option (List String)) (default_limit : Nat)
    (max_limit : Nat) (default_order_by : Option String) : FilterConfig :=
  ⟨(match allowed with
    | none => none
    | some l => if l == [] then none else some l),
   default_limit, max_limit, default_order_by⟩

def FilterConfig.default : FilterConfig := FilterConfig.make none 50 1000 none

/-! The storage collaborator: composable queries and their execution over a
list of rows (one database state). -/

/-- A composable query, as built by select / where / order_by / offset /
limit. -/
structure SelectQ where
  whereClauses : List GroupPred
  orderCrits : List (String × Bool)
  off : Option Nat
  lim : Option Nat
deriving DecidableEq, Repr

def selectAll : SelectQ := ⟨[], [], none, none⟩

def SelectQ.whereAdd (q : SelectQ) (p : GroupPred) : SelectQ :=
  ⟨q.whereClauses ++ [p], q.orderCrits, q.off, q.lim⟩

def SelectQ.orderAdd (q : SelectQ) (c : String × Bool) : SelectQ :=
  ⟨q.whereClauses, q.orderCrits ++ [c], q.off, q.lim⟩

def SelectQ.withOffset (q : SelectQ) (n : Nat) : SelectQ :=
  ⟨q.whereClauses, q.orderCrits, some n, q.lim⟩

def SelectQ.withLimit (q : SelectQ) (n : Nat) : SelectQ :=
  ⟨q.whereClauses, q.orderCrits, q.off, some n⟩

/-- Multi-key row comparison for ORDER BY: the first criterion whose values
differ decides; the descending flag swaps the comparison. -/
def rowLeBy : List (String × Bool) → Row → Row → Bool
  | [], _, _ => true
  | (c, d) :: rest, a, b =>
      let va := Row.get a c
      let vb := Row.get b c
      if va == vb then rowLeBy rest a b
      else if d then scalLe vb va else scalLe va vb

/-- Stable insertion into a sorted list. -/
def insertRow (le : Row → Row → Bool) (x : Row) : List Row → List Row
  | [] => [x]
  | y :: ys => if le x y then x :: y :: ys else y :: insertRow le x ys

/-- Stable insertion sort (the model of ORDER BY). -/
def sortRows (le : Row → Row → Bool) : List Row → List Row
  | [] => []
  | x :: xs => insertRow le x (sortRows le xs)

/-- Execute a composed query over a database state: WHERE, ORDER BY,
OFFSET, LIMIT, in SQL order. -/
def runSelect (db : List Row) (q : SelectQ) : List Row :=
  let rows := db.filter (fun r => q.whereClauses.all (evalGroupPred r))
  let rows := match q.orderCrits with
    | [] => rows
    | crits => sortRows (rowLeBy crits) rows
  let rows := match q.off with
    | none => rows
    | some n => rows.drop n
  match q.lim with
  | none => rows
  | some n => rows.take n

/-- `select(func.count()).select_from(query.subquery())` executed: the
number of rows the subquery yields. -/
def countOf (db : List Row) (q : SelectQ) : Nat := (runSelect db q).length

/-! The query compiler: `AsyncQueryFilterEngine`. -/

/-- An engine bound to one entity type: the reflected attribute set
(result of `_get_model_fields`) plus the per-entity config.  Column lookup
(`getattr`) succeeds exactly on `model_fields`. -/
structure Engine where
  model_fields : List String
  config : FilterConfig
deriving DecidableEq, Repr

/-- `_validate_field`: a truthy allow-list is authoritative, else the
reflected model fields (a constructed config never stores an empty
allow-list, see `FilterConfig.make`). -/
def validateField (e : Engine) (f : String) : Bool :=
  match e.config.allowed_fields with
  | some allowed => allowed.contains f
  | none => e.model_fields.contains f

/-- `_validate_field` on a raw JSON value: membership of a non-string in a
set of strings is False. -/
def validateFieldV (e : Engine) (v : Value) : Bool :=
  match v with
  | .scalar (.sstr s) => validateField e s
  | _ => false

/-- `_build_condition`: unauthorized fields yield None; `getattr` failing
(field authorized by an allow-list but absent from the model) is the caught
AttributeError, also None; else coerce and apply the operator. -/
def build_condition (e : Engine) (f : Filter) : Option AtomPred :=
  if !validateField e f.name then none
  else if !(e.model_fields.contains f.name) then none
  else some (f.op.apply f.name (cast_value f.value f.type))

/-- The body of the `_apply_filter_groups` loop: one group contributes one
combined WHERE clause, and only if at least one of its conditions
resolved. -/
def applyOneGroup (e : Engine) (q : SelectQ) (g : FilterGroup) : SelectQ :=
  let conds := g.filters.filterMap (build_condition e)
  if conds == [] then q
  else q.whereAdd (match g.op with
    | .gand => .pand conds
    | .gor => .por conds)

/-- `_apply_filter_groups`. -/
def apply_filter_groups (e : Engine) (q : SelectQ)
    (groups : List FilterGroup) : SelectQ :=
  groups.foldl (applyOneGroup e) q

/-- `_apply_sorting`, fallback branch: the configured default order-by, if
truthy and authorized, ascending. -/
def applySortingDefault (e : Engine) (q : SelectQ) : SelectQ :=
  match e.config.default_order_by with
  | some d0 => if d0 != "" && validateField e d0 then q.orderAdd (d0, false) else q
  | none => q

/-- `_apply_sorting`: a truthy, authorized order_by wins, else the default
fallback, else unchanged. -/
def apply_sorting (e : Engine) (q : SelectQ) (order_by : Option String)
    (desc : Bool) : SelectQ :=
  match order_by with
  | some s =>
      if s != "" && validateField e s then q.orderAdd (s, desc)
      else applySortingDefault e q
  | none => applySortingDefault e q

/-- `_apply_pagination`: clamp the limit to `max_limit`, then attach
OFFSET and LIMIT. -/
def apply_pagination (e : Engine) (q : SelectQ) (offset limit : Nat) :
    SelectQ :=
  (q.withOffset offset).withLimit (min limit e.config.max_limit)

/-- The two queries `filter_by_query` executes: the count query is forked
from the predicate-bearing query before sorting and pagination. -/
def compileByQuery (e : Engine) (fq : FilterQuery) (base : Option SelectQ) :
    SelectQ × SelectQ :=
  let q := apply_filter_groups e (match base with
    | some b => b
    | none => selectAll) fq.groups
  let countQ := q
  let dataQ := apply_pagination e (apply_sorting e q fq.order_by fq.desc)
    fq.offset fq.limit
  (countQ, dataQ)

/-- `filter_by_query`: execute the count query, then the data query. -/
def filter_by_query (e : Engine) (fq : FilterQuery) (db : List Row)
    (base : Option SelectQ) : FilterResult :=
  let cq := (compileByQuery e fq base).1
  let dq := (compileByQuery e fq base).2
  ⟨runSelect db dq, countOf db cq⟩

/-- The aggregated unauthorized-field ValueError of `filter_by_params`
(note the literal surrounding apostrophes from the source f-string). -/
def invalidFieldsMsg (names : String) : String :=
  "\x27Недопустимые поля для фильтрации: " ++ names ++ "\x27"

def Value.isStr : Value → Bool
  | .scalar (.sstr _) => true
  | _ => false

def Value.asStr : Value → String
  | .scalar (.sstr s) => s
  | _ => ""

/-- `', '.join(invalid_fields)` over raw name values: a non-string member
is a TypeError. -/
def joinFieldNames (vs : List Value) : Except String String :=
  if vs.all Value.isStr then
    .ok (String.intercalate ", " (vs.map Value.asStr))
  else .error "TypeError: sequence item: expected str instance"

/-- The simple-filters loop of `filter_by_params`: authorized keys build
equality conditions at once (a construction failure aborts immediately),
unauthorized keys are collected. -/
def buildSimple (e : Engine) :
    List (String × Value) → Except String (List Filter × List String)
  | [] => .ok ([], [])
  | (k, v) :: rest =>
      if validateField e k then do
        let f ← Filter.make k (.inl Op.EQ) v none
        let (fs, inv) ← buildSimple e rest
        .ok (f :: fs, inv)
      else do
        let (fs, inv) ← buildSimple e rest
        .ok (fs, k :: inv)

/-- `Op.from_string` applied to a raw item operator value: a non-string
matches no alias, so it falls through to the unsupported-operator error. -/
def opFromValue (v : Value) : Except String Op :=
  match v with
  | .scalar (.sstr s) => Op.from_string s
  | _ => .error (Op.unsupportedMsg (pyStr v))

/-- The items loop of one advanced-filter group: items lacking name or
value are skipped, unauthorized names are collected, the rest resolve the
item operator (default '=') and build a `Filter`. -/
def processItems (e : Engine) :
    List RItem → Except String (List Filter × List Value)
  | [] => .ok ([], [])
  | item :: rest =>
      match item with
      | .idict kvs =>
          (match riLookup kvs "name", riLookup kvs "value" with
           | some nameV, some valueV =>
               if !validateFieldV e nameV then do
                 let (fs, inv) ← processItems e rest
                 .ok (fs, nameV :: inv)
               else do
                 let opV := match riLookup kvs "operator" with
                   | some ov => ov
                   | none => Value.vstr "="
                 let fop ← opFromValue opV
                 let f ← Filter.make nameV.asStr (.inl fop) valueV
                   (riLookup kvs "data_type")
                 let (fs, inv) ← processItems e rest
                 .ok (f :: fs, inv)
           | _, _ => processItems e rest)
      | .iprim (.scalar (.sstr s)) =>
          -- Python membership on a string item is a substring test: both
          -- hits would make the subscript raise; otherwise the item is
          -- silently skipped.
          if containsSubstr s "name" && containsSubstr s "value" then
            .error "TypeError: string indices must be integers"
          else processItems e rest
      | .iprim _ =>
          .error "TypeError: argument of type is not iterable"

/-- One advanced-filter group: groups lacking `operator` or `items` are
skipped; the group operator is lowercased and mapped (anything outside
and / all becomes or); a string-valued `items` iterates to nothing; other
non-list `items` or a non-string `operator` raise at the collaborator
boundary. -/
def processAdvGroup (e : Engine) (g : RawGroup) :
    Except String (Option FilterGroup) :=
  match rgLookup g "operator", rgLookup g "items" with
  | some opV, some itemsV =>
      (match opV with
       | .prim (.scalar (.sstr opStr)) =>
           let gopStr := if pyToLower opStr == "and" || pyToLower opStr == "all"
             then "and" else "or"
           (match itemsV with
            | .arr items => do
                let (filters, invalid) ← processItems e items
                if invalid != [] then do
                  let names ← joinFieldNames invalid
                  .error (invalidFieldsMsg names)
                else if filters != [] then do
                  let fg ← FilterGroup.make gopStr filters
                  .ok (some fg)
                else .ok none
            | .prim (.scalar (.sstr _)) =>
                -- iterating a string yields single characters, none of
                -- which contains 'name': every item is skipped
                .ok none
            | .prim _ =>
                .error "TypeError: argument of type is not iterable")
       | _ => .error "AttributeError: object has no attribute lower")
  | _, _ => .ok none

/-- The advanced-filters loop: groups processed in order, skipped groups
contribute nothing. -/
def processAdvanced (e : Engine) :
    List RawGroup → Except String (List FilterGroup)
  | [] => .ok []
  | g :: rest => do
      let first ← processAdvGroup e g
      let more ← processAdvanced e rest
      match first with
      | some fg => .ok (fg :: more)
      | none => .ok more

/-- The simple-filters phase of `filter_by_params` (the block guarded by
`if filter_params.filters:`). -/
def applySimpleStage (e : Engine) (fd : Option (List (String × Value)))
    (q0 : SelectQ) : Except String SelectQ :=
  match fd with
  | some kvs =>
      if kvs != [] then do
        let (sf, invalid) ← buildSimple e kvs
        if invalid != [] then
          .error (invalidFieldsMsg (String.intercalate ", " invalid))
        else if sf != [] then do
          let fg ← FilterGroup.make "and" sf
          pure (apply_filter_groups e q0 [fg])
        else pure q0
      else pure q0
  | none => pure q0

/-- The advanced-filters phase of `filter_by_params` (the block guarded by
`if filter_params.advanced_filters:`). -/
def applyAdvancedStage (e : Engine) (adv : Option (List RawGroup))
    (q1 : SelectQ) : Except String SelectQ :=
  match adv with
  | some gs =>
      if gs != [] then do
        let ags ← processAdvanced e gs
        if ags != [] then pure (apply_filter_groups e q1 ags)
        else pure q1
      else pure q1
  | none => pure q1

/-- The query-building phase of `filter_by_params`: everything that runs
before the first storage round-trip. -/
def filterByParamsCore (e : Engine) (p : FilterParams)
    (base : Option SelectQ) : Except String SelectQ := do
  let q0 := match base with
    | some b => b
    | none => selectAll
  let q1 ← applySimpleStage e p.filters q0
  applyAdvancedStage e p.advanced_filters q1

/-- `filter_by_params` with an execution trace: the number of storage
round-trips actually performed (count query and data query are the only
two, and every validation failure precedes both). -/
def filterByParamsT (e : Engine) (p : FilterParams) (db : List Row)
    (base : Option SelectQ) : Nat × Except String FilterResult :=
  match filterByParamsCore e p base with
  | .error m => (0, .error m)
  | .ok q =>
      let countQ := q
      let total := countOf db countQ
      let dataQ := apply_pagination e
        (apply_sorting e q p.order_by p.is_desc) p.offset p.limit
      let items := runSelect db dataQ
      (2, .ok ⟨items, total⟩)

/-- `filter_by_params` proper (just the outcome). -/
def filter_by_params (e : Engine) (p : FilterParams) (db : List Row)
    (base : Option SelectQ) : Except String FilterResult :=
  (filterByParamsT e p db base).2

/-- `paginate`: plain pagination through `filter_by_query`; a falsy size
falls back to the configured default limit. -/
def paginate (e : Engine) (db : List Row) (page : Int) (size : Option Int)
    (order_by : Option String) (desc : Bool) (base : Option SelectQ) :
    Except String FilterResult := do
  let sz : Int := match size with
    | none => e.config.default_limit
    | some n => if n == 0 then e.config.default_limit else n
  let off := (page - 1) * sz
  let fq ← FilterQuery.make off sz order_by desc []
  .ok (filter_by_query e fq db base)

/-- `FilterService.filter_with_json` on empty input: the service
short-circuits to `engine.paginate(session, page=1, size=50)`. -/
def filterWithJsonEmpty (e : Engine) (db : List Row) :
    Except String FilterResult :=
  paginate e db 1 (some 50) none false none

/-! Specification-side predicates and concrete fixtures used by the
theorems below. -/

/-- Spec-side shape predicate for one advanced-filter group, written from
the spec words for comparison with `checkGroupShape` / `checkItems`: an
`operator` key, and a non-empty `items` list whose members are dicts
carrying `name` and `value`. -/
def specGroupShape (g : RawGroup) : Bool :=
  (rgLookup g "operator").isSome &&
  (match rgLookup g "items" with
   | some (.arr items) =>
       !(items == []) && items.all (fun item =>
         match item with
         | .idict kvs =>
             (riLookup kvs "name").isSome && (riLookup kvs "value").isSome
         | .iprim _ => false)
   | _ => false)

/-- The unauthorized keys of a simple-filters mapping, in insertion order. -/
def invalidSimpleKeys (e : Engine) (kvs : List (String × Value)) :
    List String :=
  (kvs.filter (fun kv => !validateField e kv.1)).map (fun kv => kv.1)

/-- Witness engine: entity with fields id, name, age and a default config. -/
def engW : Engine := ⟨["id", "name", "age"], FilterConfig.default⟩

/-- Witness database: three rows over (id, name, age). -/
def dbW : List Row :=
  [[("id", .sint 1), ("name", .sstr "a"), ("age", .sint 20)],
   [("id", .sint 2), ("name", .sstr "b"), ("age", .sint 30)],
   [("id", .sint 3), ("name", .sstr "c"), ("age", .sint 40)]]

/-- Engine whose configured default page size is 100 (not 50). -/
def e100 : Engine := ⟨["id"], FilterConfig.make none 100 1000 none⟩

/-- Sixty distinct rows. -/
def db60 : List Row :=
  (List.range 60).map (fun i => [("id", Scalar.sint (Int.ofNat i))])

/-- An advanced-filter group referencing the unauthorized field hidden. -/
def gHidden : RawGroup :=
  [("operator", .prim (Value.vstr "and")),
   ("items", .arr [.idict [("name", Value.vstr "hidden"),
                           ("value", Value.vint 2)]])]

/-- A `FilterParams` with an unauthorized simple field and an unauthorized
advanced field at once. -/
def pCE : FilterParams :=
  ⟨0, 50, none, 1, some [("secret", Value.vint 1)], some [gHidden]⟩

/-- A group dict lacking the `items` key. -/
def gOnlyOp : RawGroup := [("operator", RVal.prim (Value.vstr "and"))]

/-! Theorems. -/

/-- Helper: `Op.from_string` answers ok exactly on the alias set. -/
theorem from_string_ok_iff (s : String) (op : Op) :
    Op.from_string s = .ok op ↔ op.aliases.contains s = true := by
  constructor
  · intro h
    unfold Op.from_string at h
    cases hf : Op.all.find? (fun op => op.aliases.contains s) with
    | none => rw [hf] at h; exact Except.noConfusion h
    | some o =>
        rw [hf] at h
        cases h
        have h2 := @List.find?_some Op (fun op => op.aliases.contains s)
          op Op.all hf
        simpa using h2
  · intro h
    have hm : s ∈ op.aliases := by
      cases op <;> exact List.mem_of_elem_eq_true h
    cases op <;> simp [Op.aliases] at hm <;>
      first
        | (rcases hm with rfl | rfl | rfl <;> rfl)
        | (rcases hm with rfl | rfl <;> rfl)

/-- Helper: a string claimed by no operator resolves to the enumerating
error. -/
theorem from_string_error (s : String)
    (h : Op.all.all (fun op => !(op.aliases.contains s)) = true) :
    Op.from_string s = .error (Op.unsupportedMsg s) := by
  unfold Op.from_string
  have hn : Op.all.find? (fun op => op.aliases.contains s) = none := by
    rw [List.find?_eq_none]
    intro op hop
    simp only [List.all_eq_true] at h
    simpa using h op hop
  rw [hn]

/-- Claim C3: operator resolution succeeds exactly on the documented
aliases; every other string fails with the error that renders the complete
alias list; the alias sets of the (pairwise listed) operators are disjoint,
so resolution is unambiguous. -/
theorem claim_C3 :
    (∀ (s : String) (op : Op),
        Op.from_string s = .ok op ↔ op.aliases.contains s = true)
    ∧ (∀ s : String,
        Op.all.all (fun op => !(op.aliases.contains s)) = true →
        Op.from_string s = .error (Op.unsupportedMsg s))
    ∧ (∀ s : String, Op.unsupportedMsg s =
        "Неподдерживаемый оператор: \x27" ++ s ++ "\x27. Доступные: " ++
          pyStrListRepr Op.get_all_aliases)
    ∧ (∀ op : Op, op ∈ Op.all)
    ∧ Op.all.Pairwise (fun o1 o2 => ∀ a ∈ o1.aliases, ¬ a ∈ o2.aliases)
    ∧ (∀ op : Op, ∀ a ∈ op.aliases, a ∈ Op.get_all_aliases) := by
  refine ⟨from_string_ok_iff, from_string_error, fun s => rfl, ?_, ?_, ?_⟩
  · intro op; cases op <;> simp [Op.all]
  · decide
  · intro op; cases op <;> decide

/-- Witness for claim C3 at concrete inputs. -/
theorem claim_C3_witness :
    Op.from_string "gte" = .ok .GTE
    ∧ Op.from_string "==" = .error (Op.unsupportedMsg "==") :=
  ⟨(claim_C3.1 "gte" .GTE).mpr (by decide),
   claim_C3.2.1 "==" (by decide)⟩

/-- Claim C6: for IN and NOT_IN, a scalar value and its single-element
sequence produce identical predicates, hence identical result sets over
every database state. -/
theorem claim_C6 :
    ∀ (col : String) (s : Scalar),
      Op.apply .IN col (.scalar s) = Op.apply .IN col (.vlist [s])
      ∧ Op.apply .NOT_IN col (.scalar s) = Op.apply .NOT_IN col (.vlist [s])
      ∧ ∀ db : List Row,
          db.filter (fun r => evalAtom r (Op.apply .IN col (.scalar s)))
            = db.filter (fun r => evalAtom r (Op.apply .IN col (.vlist [s])))
          ∧ db.filter (fun r => evalAtom r (Op.apply .NOT_IN col (.scalar s)))
              = db.filter (fun r => evalAtom r (Op.apply .NOT_IN col (.vlist [s]))) := by
  intro col s
  exact ⟨rfl, rfl, fun db => ⟨rfl, rfl⟩⟩

/-- Helper: sorting never touches the WHERE clauses (default branch). -/
theorem whereClauses_applySortingDefault (e : Engine) (q : SelectQ) :
    (applySortingDefault e q).whereClauses = q.whereClauses := by
  unfold applySortingDefault
  cases e.config.default_order_by with
  | none => rfl
  | some d0 =>
      dsimp only
      split <;> rfl

/-- Helper: sorting never touches the WHERE clauses. -/
theorem whereClauses_apply_sorting (e : Engine) (q : SelectQ)
    (ob : Option String) (d : Bool) :
    (apply_sorting e q ob d).whereClauses = q.whereClauses := by
  unfold apply_sorting
  cases ob with
  | none => exact whereClauses_applySortingDefault e q
  | some s =>
      dsimp only
      split
      · rfl
      · exact whereClauses_applySortingDefault e q

/-- Helper: one filter group leaves ordering and pagination untouched. -/
theorem applyOneGroup_decor (e : Engine) (q : SelectQ) (g : FilterGroup) :
    (applyOneGroup e q g).orderCrits = q.orderCrits
    ∧ (applyOneGroup e q g).off = q.off
    ∧ (applyOneGroup e q g).lim = q.lim := by
  unfold applyOneGroup
  dsimp only
  split <;> exact ⟨rfl, rfl, rfl⟩

/-- Helper: filter groups leave ordering and pagination untouched. -/
theorem apply_filter_groups_decor (e : Engine) :
    ∀ (gs : List FilterGroup) (q : SelectQ),
      (apply_filter_groups e q gs).orderCrits = q.orderCrits
      ∧ (apply_filter_groups e q gs).off = q.off
      ∧ (apply_filter_groups e q gs).lim = q.lim := by
  intro gs
  induction gs with
  | nil => intro q; exact ⟨rfl, rfl, rfl⟩
  | cons g rest ih =>
      intro q
      have hc : apply_filter_groups e q (g :: rest)
          = apply_filter_groups e (applyOneGroup e q g) rest := rfl
      rw [hc]
      obtain ⟨h1, h2, h3⟩ := ih (applyOneGroup e q g)
      obtain ⟨g1, g2, g3⟩ := applyOneGroup_decor e q g
      exact ⟨h1.trans g1, h2.trans g2, h3.trans g3⟩

/-- Claim C1: the total returned by filter_by_query is computed from the
count query forked before ordering or pagination, so it never depends on
offset, limit, order_by or the sort direction; and the count query and the
data query carry identical WHERE clauses. -/
theorem claim_C1 :
    ∀ (e : Engine) (base : Option SelectQ) (db : List Row)
      (groups : List FilterGroup)
      (off1 lim1 : Nat) (ob1 : Option String) (d1 : Bool)
      (off2 lim2 : Nat) (ob2 : Option String) (d2 : Bool),
      (filter_by_query e ⟨off1, lim1, ob1, d1, groups⟩ db base).total
        = (filter_by_query e ⟨off2, lim2, ob2, d2, groups⟩ db base).total
      ∧ ∀ fq : FilterQuery,
          (compileByQuery e fq base).1.whereClauses
            = (compileByQuery e fq base).2.whereClauses := by
  intro e base db groups off1 lim1 ob1 d1 off2 lim2 ob2 d2
  constructor
  · rfl
  · intro fq
    have hp : (compileByQuery e fq base).2
        = apply_pagination e
            (apply_sorting e (compileByQuery e fq base).1 fq.order_by fq.desc)
            fq.offset fq.limit := rfl
    rw [hp]
    have hpag : ∀ (q : SelectQ) (o l : Nat),
        (apply_pagination e q o l).whereClauses = q.whereClauses :=
      fun q o l => rfl
    rw [hpag, whereClauses_apply_sorting]

/-- Helper: a query with a limit yields at most that many rows. -/
theorem runSelect_length_le (db : List Row) (q : SelectQ) (n : Nat)
    (h : q.lim = some n) : (runSelect db q).length ≤ n := by
  unfold runSelect
  rw [h]
  dsimp only
  exact (List.length_take n _).trans_le (Nat.min_le_left n _)

/-- Helper: an undecorated query returns exactly the rows matching its
WHERE clauses. -/
theorem runSelect_plain (db : List Row) (q : SelectQ)
    (h1 : q.orderCrits = []) (h2 : q.off = none) (h3 : q.lim = none) :
    runSelect db q = db.filter (fun r => q.whereClauses.all (evalGroupPred r)) := by
  unfold runSelect
  rw [h1, h2, h3]

/-- Claim C7: the limit attached to the data query is the requested limit
clamped to the configured maximum; the count query carries no ordering,
offset or limit, so total is the full match count; and the page holds at
most the clamped number of rows. -/
theorem claim_C7 :
    ∀ (e : Engine) (fq : FilterQuery) (db : List Row),
      (compileByQuery e fq none).2.lim
          = some (min fq.limit e.config.max_limit)
      ∧ (compileByQuery e fq none).1.lim = none
      ∧ (compileByQuery e fq none).1.off = none
      ∧ (compileByQuery e fq none).1.orderCrits = []
      ∧ (filter_by_query e fq db none).items.length
          ≤ min fq.limit e.config.max_limit
      ∧ (filter_by_query e fq db none).total
          = (db.filter (fun r =>
              (compileByQuery e fq none).1.whereClauses.all
                (evalGroupPred r))).length := by
  intro e fq db
  obtain ⟨hoc, hoff, hlim⟩ :=
    apply_filter_groups_decor e fq.groups selectAll
  have hoc2 : (apply_filter_groups e selectAll fq.groups).orderCrits = [] :=
    hoc.trans rfl
  have hoff2 : (apply_filter_groups e selectAll fq.groups).off = none :=
    hoff.trans rfl
  have hlim2 : (apply_filter_groups e selectAll fq.groups).lim = none :=
    hlim.trans rfl
  have hq : (compileByQuery e fq none).1
      = apply_filter_groups e selectAll fq.groups := rfl
  refine ⟨rfl, hq ▸ hlim2, hq ▸ hoff2, hq ▸ hoc2, ?_, ?_⟩
  · exact runSelect_length_le db (compileByQuery e fq none).2
      (min fq.limit e.config.max_limit) rfl
  · show countOf db (compileByQuery e fq none).1 = _
    unfold countOf
    rw [hq, runSelect_plain db _ hoc2 hoff2 hlim2]

/-- Helper: str() of a string value is the string itself. -/
theorem pyStr_vstr (s : String) : pyStr (Value.vstr s) = s := rfl

/-- Helper: character-wise replacement distributes over append. -/
theorem replList_append (c : Char) (new : String) (l1 l2 : List Char) :
    replList c new (l1 ++ l2) = replList c new l1 ++ replList c new l2 := by
  induction l1 with
  | nil => simp [replList]
  | cons ch rest ih => simp [replList, ih, String.append_assoc]

/-- Helper: replacement is the identity where the needle does not occur. -/
theorem replList_no_occ (c : Char) (new : String) (l : List Char)
    (h : l.all (fun ch => ch != c) = true) : replList c new l = String.mk l := by
  induction l with
  | nil => rfl
  | cons ch rest ih =>
      simp only [List.all_cons, Bool.and_eq_true, bne_iff_ne] at h
      obtain ⟨h1, h2⟩ := h
      unfold replList
      rw [if_neg (by simpa using h1), ih (by simpa using h2)]
      rfl

/-- Helper: a trailing Z (with no other Z in the string) is rewritten to an
explicit UTC offset. -/
theorem pyReplaceChar_trailingZ (s : String)
    (h : s.toList.all (fun ch => ch != 'Z') = true) :
    pyReplaceChar 'Z' "+00:00" (s ++ "Z") = s ++ "+00:00" := by
  unfold pyReplaceChar
  have hsplit : (s ++ "Z").toList = s.toList ++ ['Z'] := by
    simp [String.toList, String.data_append]
  rw [hsplit, replList_append, replList_no_occ _ _ _ h]
  rfl

/-- Helper: cast_value on a present, truthy type hint and a non-None value
is the converter output with fallback to the raw value. -/
theorem cast_value_some (v : Value) (th : String)
    (h1 : (th == "") = false) (h2 : (v == Value.vnone) = false) :
    cast_value v (some th) = (tryConvert th v).getD v := by
  unfold cast_value
  dsimp only
  rw [h1, h2]
  cases tryConvert th v <;> rfl

/-- Claim C8: coercion by declared type is best-effort and total — bool is
true exactly on the case-insensitive forms true / 1 / yes / on and false
otherwise; date replaces the Z suffix by an explicit UTC offset before
parsing (and accepts such a string); and whenever the converter fails the
raw value is returned unchanged. -/
theorem claim_C8 :
    (∀ v : Value, v ≠ Value.vnone →
        cast_value v (some "bool")
          = Value.vbool
              (decide (pyToLower (pyStr v) ∈ (["true", "1", "yes", "on"] : List String))))
    ∧ (∀ s : String,
        cast_value (Value.vstr s) (some "date")
          = ((pyFromIso (pyReplaceChar 'Z' "+00:00" s)).map
              (fun t => Value.scalar (.sdate t.1 t.2.1 t.2.2))).getD (Value.vstr s))
    ∧ (∀ s : String, s.toList.all (fun ch => ch != 'Z') = true →
        pyReplaceChar 'Z' "+00:00" (s ++ "Z") = s ++ "+00:00")
    ∧ cast_value (Value.vstr "2024-03-05T10:20:30Z") (some "date")
        = Value.scalar (.sdate 2024 3 5)
    ∧ (∀ (v : Value) (th : String), tryConvert th v = none →
        cast_value v (some th) = v) := by
  refine ⟨?_, ?_, pyReplaceChar_trailingZ, by rfl, ?_⟩
  · intro v hv
    have hb : (v == Value.vnone) = false := beq_eq_false_iff_ne.mpr hv
    simp [cast_value, tryConvert, hb]
  · intro s
    have h2 : (Value.vstr s == Value.vnone) = false := rfl
    rw [cast_value_some (Value.vstr s) "date" rfl h2]
    rfl
  · intro v th h
    unfold cast_value
    dsimp only
    split
    · rfl
    · rw [h]

/-- Witness for claim C8 at concrete inputs. -/
theorem claim_C8_witness :
    Value.vstr "YES" ≠ Value.vnone
    ∧ cast_value (Value.vstr "YES") (some "bool") = Value.vbool true
    ∧ ("2024-03-05T10:20:30".toList.all (fun ch => ch != 'Z')) = true
    ∧ pyReplaceChar 'Z' "+00:00" ("2024-03-05T10:20:30" ++ "Z")
        = "2024-03-05T10:20:30" ++ "+00:00"
    ∧ tryConvert "int" (Value.vstr "12x") = none
    ∧ cast_value (Value.vstr "12x") (some "int") = Value.vstr "12x" := by
  refine ⟨by decide, ?_, by decide, ?_, by decide, ?_⟩
  · exact (claim_C8.1 (Value.vstr "YES") (by decide)).trans (by decide)
  · exact claim_C8.2.2.1 "2024-03-05T10:20:30" (by decide)
  · exact claim_C8.2.2.2.2 (Value.vstr "12x") "int" (by decide)

/-- Helper: name validation succeeds exactly on non-empty,
non-whitespace-only names whose non-dash, non-underscore core is Python
alphanumeric. -/
theorem validateName_ok_iff (v : String) :
    (∃ r, validateName v = .ok r)
      ↔ (v ≠ "" ∧ pyStrip v ≠ ""
          ∧ pyIsAlnum (stripUnderscoreDash v) = true) := by
  unfold validateName
  constructor
  · rintro ⟨r, hr⟩
    split_ifs at hr with h1 h2 h3
    all_goals first
      | exact Except.noConfusion hr
      | exact ⟨by simpa using h1, by simpa using h2, by simpa using h3⟩
  · rintro ⟨h1, h2, h3⟩
    rw [if_neg (by simpa using h1), if_neg (by simpa using h2),
      if_neg (by simp [h3])]
    exact ⟨pyStrip v, rfl⟩

/-- Helper: the value validator rejects exactly None. -/
theorem validateValue_ok_iff (v : Value) :
    (∃ r, validateValue v = .ok r) ↔ v ≠ Value.vnone := by
  unfold validateValue
  constructor
  · rintro ⟨r, hr⟩
    split_ifs at hr with h1
    all_goals first
      | exact Except.noConfusion hr
      | simpa using h1
  · intro h
    rw [if_neg (by simpa using h)]
    exact ⟨v, rfl⟩

/-- Helper: the declared-type check accepts exactly None and the five
literal member strings. -/
theorem validateTypeHint_ok_iff (ty : Option Value) :
    (∃ r, validateTypeHint ty = .ok r)
      ↔ (ty = none ∨ ∃ s, ty = some (Value.vstr s)
          ∧ s ∈ (["str", "int", "float", "bool", "date"] : List String)) := by
  constructor
  · rintro ⟨r, hr⟩
    match ty with
    | none => exact Or.inl rfl
    | some (.scalar (.sstr s)) =>
        refine Or.inr ⟨s, rfl, ?_⟩
        unfold validateTypeHint at hr
        dsimp only at hr
        split_ifs at hr with h1
        all_goals first
          | exact Except.noConfusion hr
          | simpa using h1
    | some (.scalar (.sint n)) => exact absurd hr (by simp [validateTypeHint])
    | some (.scalar (.sbool b)) => exact absurd hr (by simp [validateTypeHint])
    | some (.scalar (.sfloat m e)) => exact absurd hr (by simp [validateTypeHint])
    | some (.scalar (.sdate y m d)) => exact absurd hr (by simp [validateTypeHint])
    | some (.scalar .snone) => exact absurd hr (by simp [validateTypeHint])
    | some (.vlist xs) => exact absurd hr (by simp [validateTypeHint])
  · rintro (rfl | ⟨s, rfl, hs⟩)
    · exact ⟨none, rfl⟩
    · refine ⟨some s, ?_⟩
      unfold validateTypeHint
      dsimp only [Value.vstr]
      rw [if_pos (by simpa using hs)]

/-- Claim C9 counterexample: a Condition whose name is a non-ASCII letter
is accepted by construction, although the name does not match
[A-Za-z0-9_-]+ (Python isalnum also accepts non-ASCII letters). -/
theorem claim_C9_counterexample :
    (∃ f, Filter.make "é" (.inl Op.EQ) (Value.vint 1) none = .ok f)
    ∧ ("é".toList.all (fun c =>
        ('A' ≤ c && c ≤ 'Z') || ('a' ≤ c && c ≤ 'z') ||
        ('0' ≤ c && c ≤ '9') || c == '_' || c == '-')) = false := by
  exact ⟨⟨⟨"é", Op.EQ, Value.vint 1, none⟩, rfl⟩, by decide⟩

/-- Claim C9 (amended): constructing a Condition succeeds exactly when the
name is non-empty and non-whitespace, every character outside underscore
and dash is Python-alphanumeric (a superset of [A-Za-z0-9]), the value is
non-null and the declared type is absent or one of the five literals; a
null value or an empty or invalid name is rejected at construction time. -/
theorem claim_C9_amended :
    ∀ (name : String) (op : Op) (value : Value) (ty : Option Value),
      (∃ f, Filter.make name (.inl op) value ty = .ok f)
        ↔ (name ≠ "" ∧ pyStrip name ≠ ""
            ∧ pyIsAlnum (stripUnderscoreDash name) = true
            ∧ value ≠ Value.vnone
            ∧ (ty = none ∨ ∃ s, ty = some (Value.vstr s)
                ∧ s ∈ (["str", "int", "float", "bool", "date"] : List String))) := by
  intro name op value ty
  constructor
  · rintro ⟨f, hf⟩
    unfold Filter.make at hf
    cases hn : validateName name with
    | error e => rw [hn] at hf; exact absurd hf (by simp [Bind.bind, Except.bind])
    | ok n =>
        rw [hn] at hf
        simp only [Bind.bind, Except.bind, validateOp] at hf
        cases hv : validateValue value with
        | error e => rw [hv] at hf; exact absurd hf (by simp)
        | ok v' =>
            rw [hv] at hf
            cases ht : validateTypeHint ty with
            | error e => rw [ht] at hf; exact absurd hf (by simp)
            | ok t =>
                obtain ⟨c1, c2, c3⟩ := (validateName_ok_iff name).mp ⟨n, hn⟩
                have c4 := (validateValue_ok_iff value).mp ⟨v', hv⟩
                have c5 := (validateTypeHint_ok_iff ty).mp ⟨t, ht⟩
                exact ⟨c1, c2, c3, c4, c5⟩
  · rintro ⟨c1, c2, c3, c4, c5⟩
    obtain ⟨n, hn⟩ := (validateName_ok_iff name).mpr ⟨c1, c2, c3⟩
    obtain ⟨v', hv⟩ := (validateValue_ok_iff value).mpr c4
    obtain ⟨t, ht⟩ := (validateTypeHint_ok_iff ty).mpr c5
    refine ⟨⟨n, op, v', t⟩, ?_⟩
    unfold Filter.make
    rw [hn]
    simp only [Bind.bind, Except.bind, validateOp]
    rw [hv, ht]

/-- Witness for the amended claim C9 at a concrete valid input. -/
theorem claim_C9_amended_witness :
    ∃ f, Filter.make "user_name-2" (.inl Op.EQ) (Value.vint 1) none = .ok f :=
  (claim_C9_amended "user_name-2" Op.EQ (Value.vint 1) none).mpr
    ⟨by decide, by decide, by decide, by decide, Or.inl rfl⟩

/-- Helper: the item loop of the list-shape validation succeeds exactly
when every item is a dict carrying name and value. -/
theorem checkItems_ok_iff (i : Nat) :
    ∀ (j : Nat) (items : List RItem),
      (checkItems i j items = .ok ())
        ↔ items.all (fun item =>
            match item with
            | .idict kvs =>
                (riLookup kvs "name").isSome && (riLookup kvs "value").isSome
            | .iprim _ => false) = true := by
  intro j items
  induction items generalizing j with
  | nil => simp [checkItems]
  | cons item rest ih =>
      cases item with
      | iprim v => simp [checkItems]
      | idict kvs =>
          unfold checkItems
          dsimp only
          split_ifs with h1 h2
          · simp only [beq_iff_eq] at h1
            simp [h1]
          · simp only [beq_iff_eq] at h2
            simp [h2]
          · simp only [beq_iff_eq] at h1 h2
            simp [List.all_cons, Option.isSome_iff_ne_none, h1, h2, ih]

/-- Helper: the per-group structure check matches the spec-side shape
predicate. -/
theorem checkGroupShape_ok_iff (i : Nat) (g : RawGroup) :
    (checkGroupShape i g = .ok ()) ↔ specGroupShape g = true := by
  unfold checkGroupShape specGroupShape
  split_ifs with h1 h2
  · simp only [beq_iff_eq] at h1
    simp [h1]
  · simp only [beq_iff_eq] at h2
    simp [h2]
  · simp only [beq_iff_eq] at h1 h2
    cases hit : rgLookup g "items" with
    | none => exact absurd hit h2
    | some rv =>
        cases rv with
        | prim v => simp
        | arr items =>
            dsimp only
            split_ifs with h3
            · simp only [beq_iff_eq] at h3
              simp [h3, Option.isSome_iff_ne_none, h1]
            · rw [checkItems_ok_iff]
              simp [Option.isSome_iff_ne_none, h1, h3]

/-- Helper: the group loop succeeds exactly when every group is
well-shaped. -/
theorem checkGroupsShape_ok_iff :
    ∀ (i : Nat) (gs : List RawGroup),
      (checkGroupsShape i gs = .ok ()) ↔ gs.all specGroupShape = true := by
  intro i gs
  induction gs generalizing i with
  | nil => simp [checkGroupsShape]
  | cons g rest ih =>
      unfold checkGroupsShape
      cases hg : checkGroupShape i g with
      | error e =>
          have : ¬ specGroupShape g = true := by
            rw [← checkGroupShape_ok_iff i g, hg]
            simp
          simp [Bind.bind, Except.bind, List.all_cons, this]
      | ok u =>
          cases u
          have : specGroupShape g = true := (checkGroupShape_ok_iff i g).mp hg
          simp [Bind.bind, Except.bind, List.all_cons, this, ih]

/-- Claim C5: a list-shaped filters field validates exactly when every
group has an operator key and a non-empty items list of dicts each carrying
name and value; on success the list is appended wholesale to
advanced_filters and filters becomes an empty mapping. -/
theorem claim_C5 :
    ∀ (gs : List RawGroup) (adv : Option (List RawGroup)),
      ((∃ r, normalizeFilters (.flist gs) adv = .ok r)
        ↔ gs.all specGroupShape = true)
      ∧ (∀ f' adv', normalizeFilters (.flist gs) adv = .ok (f', adv') →
          f' = .fdict []
          ∧ adv' = some ((match adv with
              | none => []
              | some l => l) ++ gs)) := by
  intro gs adv
  unfold normalizeFilters
  dsimp only
  cases hc : checkGroupsShape 0 gs with
  | error e =>
      constructor
      · constructor
        · rintro ⟨r, hr⟩
          simp [Bind.bind, Except.bind] at hr
        · intro hall
          have h2 := (checkGroupsShape_ok_iff 0 gs).mpr hall
          rw [hc] at h2
          exact Except.noConfusion h2
      · intro f' adv' hr
        simp [Bind.bind, Except.bind] at hr
  | ok u =>
      cases u
      constructor
      · constructor
        · intro _
          exact (checkGroupsShape_ok_iff 0 gs).mp hc
        · intro _
          exact ⟨_, rfl⟩
      · intro f' adv' hr
        simp only [Bind.bind, Except.bind, Except.ok.injEq, Prod.mk.injEq] at hr
        obtain ⟨h1, h2⟩ := hr
        exact ⟨h1.symm, h2.symm⟩

/-- Witness for claim C5 at a concrete well-shaped group list. -/
theorem claim_C5_witness :
    ([gHidden].all specGroupShape) = true
    ∧ (∃ r, normalizeFilters (.flist [gHidden]) none = .ok r)
    ∧ normalizeFilters (.flist [gHidden]) none
        = .ok (.fdict [], some ([] ++ [gHidden])) :=
  ⟨by decide, (claim_C5 [gHidden] none).1.mpr (by decide), by rfl⟩

/-- Helper: a group dict lacking operator or items is skipped without
error. -/
theorem processAdvGroup_skip (e : Engine) (g : RawGroup)
    (h : rgLookup g "operator" = none ∨ rgLookup g "items" = none) :
    processAdvGroup e g = .ok none := by
  unfold processAdvGroup
  rcases h with h | h
  · rw [h]
  · rw [h]
    cases rgLookup g "operator" <;> rfl

/-- Helper: a skipped group can be removed from the advanced list without
changing the compiled groups. -/
theorem processAdvanced_middle_skip (e : Engine) :
    ∀ (pre : List RawGroup) (g : RawGroup) (post : List RawGroup),
      processAdvGroup e g = .ok none →
      processAdvanced e (pre ++ g :: post) = processAdvanced e (pre ++ post) := by
  intro pre g post hg
  induction pre with
  | nil =>
      show processAdvanced e (g :: post) = processAdvanced e post
      conv_lhs => unfold processAdvanced
      rw [hg]
      cases hp : processAdvanced e post <;>
        simp [Bind.bind, Except.bind, hp]
  | cons p rest ih =>
      show processAdvanced e (p :: (rest ++ g :: post))
        = processAdvanced e (p :: (rest ++ post))
      unfold processAdvanced
      rw [ih]

/-- Helper: an item dict lacking name or value is skipped without error. -/
theorem processItems_middle_skip (e : Engine) :
    ∀ (preI : List RItem) (kvs : List (String × Value)) (postI : List RItem),
      (riLookup kvs "name" = none ∨ riLookup kvs "value" = none) →
      processItems e (preI ++ .idict kvs :: postI)
        = processItems e (preI ++ postI) := by
  intro preI kvs postI hkv
  induction preI with
  | nil =>
      show processItems e (.idict kvs :: postI) = processItems e postI
      conv_lhs => unfold processItems
      dsimp only
      rcases hkv with h | h
      · rw [h]
      · rw [h]
        cases riLookup kvs "name" <;> rfl
  | cons item rest ih =>
      show processItems e (item :: (rest ++ .idict kvs :: postI))
        = processItems e (item :: (rest ++ postI))
      unfold processItems
      rw [ih]

/-- Claim C10: advanced_filters supplied directly bypass structure
validation — a group dict lacking operator or items, and an item dict
lacking name or value, are silently ignored: removing them changes neither
the outcome nor the absence of errors. -/
theorem claim_C10 (e : Engine) :
    (∀ (pre post : List RawGroup) (g : RawGroup),
      (rgLookup g "operator" = none ∨ rgLookup g "items" = none) →
      ∀ (offv limv : Nat) (ob : Option String) (ascv : Nat)
        (fd : Option (List (String × Value))) (db : List Row)
        (base : Option SelectQ),
        filterByParamsT e ⟨offv, limv, ob, ascv, fd, some (pre ++ g :: post)⟩ db base
          = filterByParamsT e ⟨offv, limv, ob, ascv, fd, some (pre ++ post)⟩ db base)
    ∧ (∀ (preI : List RItem) (kvs : List (String × Value)) (postI : List RItem),
        (riLookup kvs "name" = none ∨ riLookup kvs "value" = none) →
        processItems e (preI ++ .idict kvs :: postI)
          = processItems e (preI ++ postI)) := by
  constructor
  · intro pre post g hg offv limv ob ascv fd db base
    have hpa := processAdvanced_middle_skip e pre g post
      (processAdvGroup_skip e g hg)
    have hcore : filterByParamsCore e ⟨offv, limv, ob, ascv, fd, some (pre ++ g :: post)⟩ base
        = filterByParamsCore e ⟨offv, limv, ob, ascv, fd, some (pre ++ post)⟩ base := by
      unfold filterByParamsCore
      cases hs : applySimpleStage e fd (match base with
        | some b => b
        | none => selectAll) with
      | error m => simp [Bind.bind, Except.bind, hs]
      | ok q1 =>
          simp only [Bind.bind, Except.bind, hs]
          unfold applyAdvancedStage
          dsimp only
          by_cases hpp : pre ++ post = []
          · obtain ⟨hpre, hpost⟩ := List.append_eq_nil.mp hpp
            subst hpre; subst hpost
            have hskip := processAdvGroup_skip e g hg
            simp only [List.nil_append]
            unfold processAdvanced
            rw [hskip]
            simp [Bind.bind, Except.bind, processAdvanced]
          · have hne1 : ((pre ++ g :: post) != []) = true := by
              simp
            have hne2 : ((pre ++ post) != []) = true := by
              simpa using hpp
            rw [hne1, hne2]
            simp only [if_true]
            rw [hpa]
    unfold filterByParamsT
    rw [hcore]
    rfl
  · intro preI kvs postI hkv
    exact processItems_middle_skip e preI kvs postI hkv

/-- Witness for claim C10: dropping a group that lacks items leaves the
result unchanged, at a concrete engine and database. -/
theorem claim_C10_witness :
    (rgLookup gOnlyOp "operator" = none ∨ rgLookup gOnlyOp "items" = none)
    ∧ filterByParamsT engW ⟨0, 50, none, 1, none, some ([] ++ gOnlyOp :: [])⟩ dbW none
        = filterByParamsT engW ⟨0, 50, none, 1, none, some ([] ++ [])⟩ dbW none :=
  ⟨Or.inr (by decide),
   (claim_C10 engW).1 [] [] gOnlyOp (Or.inr (by decide)) 0 50 none 1 none dbW none⟩

/-- Helper: dropping an authorized head key keeps the invalid-key list. -/
theorem invalidSimpleKeys_cons_valid (e : Engine) (k : String) (v : Value)
    (rest : List (String × Value)) (h : validateField e k = true) :
    invalidSimpleKeys e ((k, v) :: rest) = invalidSimpleKeys e rest := by
  simp [invalidSimpleKeys, h]

/-- Helper: an unauthorized head key heads the invalid-key list. -/
theorem invalidSimpleKeys_cons_invalid (e : Engine) (k : String) (v : Value)
    (rest : List (String × Value)) (h : validateField e k = false) :
    invalidSimpleKeys e ((k, v) :: rest) = k :: invalidSimpleKeys e rest := by
  simp [invalidSimpleKeys, h]

/-- Helper: when every authorized key constructs its condition, the
simple-filters loop completes and collects exactly the unauthorized keys. -/
theorem buildSimple_ok (e : Engine) :
    ∀ (kvs : List (String × Value)),
      (∀ k v, (k, v) ∈ kvs → validateField e k = true →
        ∃ f, Filter.make k (.inl Op.EQ) v none = .ok f) →
      ∃ fs, buildSimple e kvs = .ok (fs, invalidSimpleKeys e kvs) := by
  intro kvs h
  induction kvs with
  | nil => exact ⟨[], rfl⟩
  | cons kv rest ih =>
      obtain ⟨k, v⟩ := kv
      obtain ⟨fs, hfs⟩ :=
        ih (fun k' v' hm hv => h k' v' (List.mem_cons_of_mem _ hm) hv)
      unfold buildSimple
      by_cases hval : validateField e k = true
      · obtain ⟨f, hf⟩ := h k v (List.mem_cons_self _ _) hval
        rw [if_pos hval]
        refine ⟨f :: fs, ?_⟩
        rw [invalidSimpleKeys_cons_valid e k v rest hval]
        simp [Bind.bind, Except.bind, hf, hfs]
      · have hval2 : validateField e k = false := by
          simpa using hval
        rw [if_neg hval]
        refine ⟨fs, ?_⟩
        rw [invalidSimpleKeys_cons_invalid e k v rest hval2]
        simp [Bind.bind, Except.bind, hfs]

/-- Helper: an unauthorized simple field aborts the simple stage with the
aggregated message. -/
theorem applySimpleStage_invalid (e : Engine) (kvs : List (String × Value))
    (q0 : SelectQ)
    (hmk : ∀ k v, (k, v) ∈ kvs → validateField e k = true →
      ∃ f, Filter.make k (.inl Op.EQ) v none = .ok f)
    (hinv : invalidSimpleKeys e kvs ≠ []) :
    applySimpleStage e (some kvs) q0
      = .error (invalidFieldsMsg
          (String.intercalate ", " (invalidSimpleKeys e kvs))) := by
  unfold applySimpleStage
  dsimp only
  have hkvs : kvs ≠ [] := by
    intro hk
    subst hk
    exact hinv rfl
  rw [if_pos (by simpa using hkvs)]
  obtain ⟨fs, hfs⟩ := buildSimple_ok e kvs hmk
  simp only [Bind.bind, Except.bind, hfs]
  rw [if_pos (by simpa using hinv)]

/-- Claim C2 counterexample: with an unauthorized simple field (secret) and
an unauthorized advanced field (hidden) in the same FilterParams, the
raised error names only secret — it does not name every offending field
across both simple and advanced filters (though no storage call happens). -/
theorem claim_C2_counterexample :
    FilterParams.make 0 50 none 1
        (.fdict [("secret", Value.vint 1)]) (some [gHidden]) = .ok pCE
    ∧ filterByParamsT engW pCE dbW none
        = (0, .error (invalidFieldsMsg "secret"))
    ∧ validateField engW "hidden" = false
    ∧ containsSubstr (invalidFieldsMsg "secret") "hidden" = false := by
  exact ⟨rfl, rfl, by decide, by decide⟩

/-- Claim C2 (amended): a FilterParams with an unauthorized simple field
raises one ValueError naming every unauthorized field of the simple-filters
mapping (not stopping at the first), before any storage round-trip;
unauthorized fields appearing only in advanced groups are reported later,
per group, and are absent from this message; and every validation failure
performs zero storage calls. -/
theorem claim_C2 :
    ∀ (e : Engine) (p : FilterParams) (db : List Row) (base : Option SelectQ),
      (∀ m, (filterByParamsT e p db base).2 = .error m →
          (filterByParamsT e p db base).1 = 0)
      ∧ (∀ kvs, p.filters = some kvs →
          invalidSimpleKeys e kvs ≠ [] →
          (∀ k v, (k, v) ∈ kvs → validateField e k = true →
            ∃ f, Filter.make k (.inl Op.EQ) v none = .ok f) →
          filterByParamsT e p db base
            = (0, .error (invalidFieldsMsg
                (String.intercalate ", " (invalidSimpleKeys e kvs))))) := by
  intro e p db base
  constructor
  · intro m hm
    unfold filterByParamsT at hm ⊢
    cases hcore : filterByParamsCore e p base with
    | error m2 => rfl
    | ok q =>
        rw [hcore] at hm
        exact absurd hm (by simp)
  · intro kvs hfd hinv hmk
    have hcore : filterByParamsCore e p base
        = .error (invalidFieldsMsg
            (String.intercalate ", " (invalidSimpleKeys e kvs))) := by
      unfold filterByParamsCore
      rw [hfd]
      have hss := applySimpleStage_invalid e kvs (match base with
        | some b => b
        | none => selectAll) hmk hinv
      simp [Bind.bind, Except.bind, hss]
    unfold filterByParamsT
    rw [hcore]

/-- Witness for the amended claim C2 at a concrete engine and params. -/
theorem claim_C2_witness :
    pCE.filters = some [("secret", Value.vint 1)]
    ∧ invalidSimpleKeys engW [("secret", Value.vint 1)] ≠ []
    ∧ filterByParamsT engW pCE dbW none
        = (0, .error (invalidFieldsMsg
            (String.intercalate ", "
              (invalidSimpleKeys engW [("secret", Value.vint 1)])))) := by
  refine ⟨rfl, by decide, ?_⟩
  exact (claim_C2 engW pCE dbW none).2 [("secret", Value.vint 1)] rfl
    (by decide)
    (by
      intro k v hm hv
      simp only [List.mem_singleton, Prod.mk.injEq] at hm
      obtain ⟨rfl, rfl⟩ := hm
      exact absurd hv (by decide))

/-- Helper: empty JSON input runs page 1 of size 50 over the unfiltered
entity: items are the first min(50, max_limit) rows (no sorting configured)
and total is the full row count. -/
theorem filterWithJsonEmpty_eval (e : Engine) (db : List Row)
    (h : e.config.default_order_by = none) :
    filterWithJsonEmpty e db
      = .ok ⟨db.take (min 50 e.config.max_limit), db.length⟩ := by
  have h1 : filterWithJsonEmpty e db
      = .ok (filter_by_query e ⟨0, 50, none, false, []⟩ db none) := rfl
  have hsort : apply_sorting e selectAll none false = selectAll := by
    unfold apply_sorting applySortingDefault
    rw [h]
  have hcq : (compileByQuery e ⟨0, 50, none, false, []⟩ none).1 = selectAll := rfl
  have hdq : (compileByQuery e ⟨0, 50, none, false, []⟩ none).2
      = (selectAll.withOffset 0).withLimit (min 50 e.config.max_limit) := by
    show apply_pagination e (apply_sorting e selectAll none false) 0 50 = _
    rw [hsort]
    rfl
  rw [h1]
  suffices hsuf : filter_by_query e ⟨0, 50, none, false, []⟩ db none
      = ⟨db.take (min 50 e.config.max_limit), db.length⟩ by rw [hsuf]
  unfold filter_by_query
  rw [hcq, hdq]
  unfold countOf runSelect
  simp [selectAll, SelectQ.withOffset, SelectQ.withLimit]

/-- Claim C4 counterexample: with a configured default page size of 100 and
sixty rows, empty JSON input still returns 50 items — the page size is the
hardcoded 50, not the configured default_limit. -/
theorem claim_C4_counterexample :
    e100.config.default_limit = 100
    ∧ filterWithJsonEmpty e100 db60 = .ok ⟨db60.take 50, 60⟩
    ∧ (db60.take 50).length = 50
    ∧ db60.length = 60
    ∧ (db60.take 50).length ≠ min db60.length e100.config.default_limit := by
  refine ⟨rfl, ?_, by decide, by decide, by decide⟩
  have h := filterWithJsonEmpty_eval e100 db60 rfl
  simpa using h

/-- Claim C4 (amended): empty input to the JSON entry point is valid, not
an error, and yields page 1 of size 50 — the hardcoded service default —
clamped to max_limit, with offset 0 and total equal to the full unfiltered
row count; this equals the configured default size only when default_limit
is 50. -/
theorem claim_C4 :
    ∀ (e : Engine) (db : List Row),
      e.config.default_order_by = none →
      filterWithJsonEmpty e db
        = .ok ⟨db.take (min 50 e.config.max_limit), db.length⟩ :=
  filterWithJsonEmpty_eval

/-- Witness for the amended claim C4 at a concrete engine and database. -/
theorem claim_C4_witness :
    engW.config.default_order_by = none
    ∧ filterWithJsonEmpty engW dbW
        = .ok ⟨dbW.take (min 50 engW.config.max_limit), dbW.length⟩ :=
  ⟨rfl, claim_C4 engW dbW rfl⟩

end RTT
